import Mathlib

/-!
Shallow embedding of the session-lifecycle core of dev-environment-manager
(`pkg.go`, `cmd.go`): identity resolution against the Viper config store,
volume-binding composition, container reconciliation against a modelled
Docker engine, session attachment and teardown.

External collaborators (filesystem, git transport, Docker engine, the OS
user lookup) are modelled as explicit state / oracles threaded through the
functions, and every externally visible call the Go code makes is recorded
in an event trace so that claims about which operations run (and in which
order) can be stated directly.
-/

namespace DevEnv

/-- Composite key of a `ProjectRecord` in the Viper store: the Go code uses
the string key `users.<username>.projects.<projectDirName>.repos.<repoName>`;
we model it as the triple of path components. -/
structure ConfigKey where
  username : String
  projectDirName : String
  repoName : String
  deriving DecidableEq, Repr

instance : BEq ConfigKey := ⟨fun a b => decide (a = b)⟩

instance : LawfulBEq ConfigKey where
  eq_of_beq h := by simpa [BEq.beq] using h
  rfl := by simp [BEq.beq]

/-- A persisted project record. Viper stores each field under its own
sub-key (`repo_url`, `docker_image`, `container_name`, optionally
`volume_bindings`), so any of them can be absent; `GetStringMapString`
returns `""` for an absent string field. -/
structure ProjectRecord where
  repo_url : Option String
  docker_image : Option String
  container_name : Option String
  volume_bindings : Option (List String)
  deriving DecidableEq, Repr

/-- The Viper configuration store, restricted to the project records the
program reads and writes: an association list from composite keys to
records. `viper.IsSet projectKey` is membership of the key. -/
abbrev ConfigStore := List (ConfigKey × ProjectRecord)

/-- `viper.GetStringMapString(key)["field"]`: a present field verbatim, an
absent one as the empty string. -/
def fieldOrEmpty (o : Option String) : String := o.getD ""

/-- `strings.ToLower`: lower each character (agrees with Go on the ASCII
names the program handles). -/
def toLowerStr (s : String) : String := String.mk (s.data.map Char.toLower)

/-- `deriveProjectValues` from `pkg.go`: if the composite key is set in the
store, return the stored `repo_url`, `docker_image`, `container_name` as
`GetStringMapString` yields them; otherwise derive the default triple from
the lower-cased repository name. -/
def deriveProjectValues (store : ConfigStore) (username projectDirName repoName : String) :
    String × String × String :=
  match store.lookup ⟨username, projectDirName, repoName⟩ with
  | some rec =>
      (fieldOrEmpty rec.repo_url, fieldOrEmpty rec.docker_image, fieldOrEmpty rec.container_name)
  | none =>
      ("https://github.com/Cdaprod/" ++ (toLowerStr repoName) ++ ".git",
       "cdaprod/" ++ (toLowerStr repoName) ++ ":latest",
       "nvim-" ++ (toLowerStr repoName))

/-- `getVolumeBindings` from `pkg.go`: the fixed default editor-config
bindings under the home directory, then the project path mapped to
`/usr/src/app`. -/
def getVolumeBindings (homeDir projectPath : String) : List String :=
  [ homeDir ++ "/.config/nvim:/root/.config/nvim",
    homeDir ++ "/.vim:/root/.vim",
    homeDir ++ "/.vimrc:/root/.vimrc",
    projectPath ++ ":/usr/src/app" ]

/-- `AddProjectConfig` from `pkg.go`, as a state transition on the store:
reject a duplicate composite key before any write, otherwise set the three
fields of the record and persist. The filesystem persistence step is the
external collaborator; its failure modes do not change the store content
written here. -/
def AddProjectConfig (store : ConfigStore)
    (username projectDirName repoName repoURL dockerImage containerName : String) :
    Except String Unit × ConfigStore :=
  let key : ConfigKey := ⟨username, projectDirName, repoName⟩
  if (store.lookup key).isSome then
    (Except.error ("repository " ++ repoName ++ " already exists under project "
        ++ projectDirName ++ " for user " ++ username), store)
  else
    (Except.ok (),
      store ++ [(key, ⟨some repoURL, some dockerImage, some containerName, none⟩)])

/-- The `Run` body of `addProjectCmd` from `cmd.go`: derive the Docker image
and container name from the lower-cased repository name and store them,
with the user-supplied repository URL, via `AddProjectConfig`. -/
def addProjectCmdRun (store : ConfigStore)
    (username projectDirName repoName repoURL : String) :
    Except String Unit × ConfigStore :=
  let dockerImage := "cdaprod/" ++ (toLowerStr repoName) ++ ":latest"
  let containerName := "nvim-" ++ (toLowerStr repoName)
  AddProjectConfig store username projectDirName repoName repoURL dockerImage containerName

/-- One container known to the Docker engine. -/
structure EngineContainer where
  id : String
  name : String
  running : Bool
  deriving DecidableEq, Repr

/-- The Docker engine as the program observes it: the containers it holds,
an oracle saying which image pulls succeed, and a counter supplying fresh
container identifiers. The engine enforces container-name uniqueness at
creation time (a create against a name already in use fails with a
conflict), as the Docker daemon does. -/
structure Engine where
  containers : List EngineContainer
  pullOk : String → Bool
  startOk : String → Bool
  removeOk : String → Bool
  nextId : Nat

/-- Externally visible calls the program makes, in order. -/
inductive Event where
  | clone (url dest : String)
  | pull (image : String)
  | create (image name : String) (cmd env binds : List String)
  | start (id : String)
  | attach (id : String)
  | remove (id : String)
  deriving DecidableEq, Repr

/-- Mark the container with the given id as running (the engine's effect of
a successful start). -/
def setRunning (cid : String) (cs : List EngineContainer) : List EngineContainer :=
  cs.map fun c => if c.id == cid then { c with running := true } else c

/-- Whether a container with the given name exists in the engine, in any
run state. -/
def nameInUse (e : Engine) (containerName : String) : Bool :=
  e.containers.any (fun c => c.name == containerName)

/-- `RunContainer` from `pkg.go`: pull the image, then create the container
with the given command, environment, TTY and bindings, then start it.
Returns the new container id on success. Any step's failure returns an
error immediately; no inspection or removal of pre-existing containers is
performed. Result: (outcome, engine after the call, events emitted). -/
def RunContainer (e : Engine) (imageName containerName : String)
    (binds cmdArgs env : List String) :
    Except String String × Engine × List Event :=
  if e.pullOk imageName = false then
    (Except.error ("error pulling image " ++ imageName), e, [Event.pull imageName])
  else if nameInUse e containerName then
    (Except.error ("error creating container " ++ containerName), e,
      [Event.pull imageName, Event.create imageName containerName cmdArgs env binds])
  else
    let cid := "cid-" ++ toString e.nextId
    let e1 : Engine := { e with containers := e.containers ++ [⟨cid, containerName, false⟩],
                                nextId := e.nextId + 1 }
    if e.startOk cid = false then
      (Except.error ("error starting container " ++ containerName), e1,
        [Event.pull imageName, Event.create imageName containerName cmdArgs env binds,
         Event.start cid])
    else
      (Except.ok cid,
        { e1 with containers := setRunning cid e1.containers },
        [Event.pull imageName, Event.create imageName containerName cmdArgs env binds,
         Event.start cid])

/-- `RemoveContainer` from `pkg.go`: force-remove the container by id.
The engine drops the container when the removal succeeds. -/
def RemoveContainer (e : Engine) (containerID : String) :
    Except String Unit × Engine × List Event :=
  if e.removeOk containerID then
    (Except.ok (),
      { e with containers := e.containers.filter (fun c => c.id != containerID) },
      [Event.remove containerID])
  else
    (Except.error ("error removing container " ++ containerID), e,
      [Event.remove containerID])

/-- The external world `StartProject` runs in: the resolved home directory,
which paths exist on the filesystem, which clones succeed, whether the
interactive attach for a given container id exits cleanly, the current OS
username, the Docker engine and the configuration store. -/
structure World where
  homeDir : String
  fsExists : String → Bool
  cloneOk : String → String → Bool
  attachOk : String → Bool
  username : String
  engine : Engine
  store : ConfigStore

/-- `filepath.Join(homeDir, "Projects", projectDirName, repoName)`. -/
def projectPathOf (homeDir projectDirName repoName : String) : String :=
  homeDir ++ "/Projects/" ++ projectDirName ++ "/" ++ repoName

/-- The source-materialization step of `StartProject` (`pkg.go` lines
33-41): stat the project path; clone only when it does not exist; a clone
failure aborts. -/
def materialize (w : World) (repoURL projectPath : String) :
    Except String Unit × List Event :=
  if w.fsExists projectPath then
    (Except.ok (), [])
  else if w.cloneOk repoURL projectPath then
    (Except.ok (), [Event.clone repoURL projectPath])
  else
    (Except.error "error cloning repository", [Event.clone repoURL projectPath])

/-- `AttachToContainer` from `pkg.go`: run the interactive editor attached
to the container; surface a non-zero exit as an error. -/
def AttachToContainer (w : World) (containerID : String) :
    Except String Unit × List Event :=
  if w.attachOk containerID then
    (Except.ok (), [Event.attach containerID])
  else
    (Except.error ("error executing Neovim in " ++ containerID), [Event.attach containerID])

/-- `StartProject` from `pkg.go`: resolve the project identity, materialize
the source, compose the bindings, run the container, attach, and remove the
container after a successful attach. Each failing step returns its error
immediately — in particular an attach error returns before the
`RemoveContainer` call is reached. Result: (outcome, engine after the call,
events emitted in order). -/
def StartProject (w : World) (projectDirName repoName : String) :
    Except String Unit × Engine × List Event :=
  let resolved := deriveProjectValues w.store w.username projectDirName repoName
  let repoURL := resolved.1
  let dockerImage := resolved.2.1
  let containerName := resolved.2.2
  let projectPath := projectPathOf w.homeDir projectDirName repoName
  match materialize w repoURL projectPath with
  | (Except.error msg, evs) => (Except.error msg, w.engine, evs)
  | (Except.ok (), evs0) =>
    let binds := getVolumeBindings w.homeDir projectPath
    let env := ["HOME=/home/cdaprod"]
    let cmdArgs := ["nvim"]
    match RunContainer w.engine dockerImage containerName binds cmdArgs env with
    | (Except.error msg, e1, evs1) =>
        (Except.error ("error running container: " ++ msg), e1, evs0 ++ evs1)
    | (Except.ok containerID, e1, evs1) =>
      match AttachToContainer w containerID with
      | (Except.error msg, evs2) =>
          (Except.error ("error attaching to container: " ++ msg), e1,
            evs0 ++ evs1 ++ evs2)
      | (Except.ok (), evs2) =>
        match RemoveContainer e1 containerID with
        | (Except.error msg, e2, evs3) =>
            (Except.error ("error removing container: " ++ msg), e2,
              evs0 ++ evs1 ++ evs2 ++ evs3)
        | (Except.ok (), e2, evs3) =>
            (Except.ok (), e2, evs0 ++ evs1 ++ evs2 ++ evs3)

/-- Recognize a container-removal call in the event trace. -/
def isRemoveEvent : Event → Bool
  | Event.remove _ => true
  | _ => false

/-- Recognize a clone call in the event trace. -/
def isCloneEvent : Event → Bool
  | Event.clone _ _ => true
  | _ => false

/-- Recognize a container-create call in the event trace. -/
def isCreateEvent : Event → Bool
  | Event.create _ _ _ _ _ => true
  | _ => false

/-- Recognize a container-start call in the event trace. -/
def isStartEvent : Event → Bool
  | Event.start _ => true
  | _ => false

/-- Recognize an image-pull call in the event trace. -/
def isPullEvent : Event → Bool
  | Event.pull _ => true
  | _ => false

/-- Substitute every occurrence of the five-character home-directory
placeholder in a character list, fuel-bounded by the list length so the
recursion is structural. -/
def substHomeAux (home : List Char) : Nat → List Char → List Char
  | 0, l => l
  | _, [] => []
  | n + 1, c :: rest =>
    if rest.take 4 = ['H', 'O', 'M', 'E'] ∧ c = '$' then
      home ++ substHomeAux home n (rest.drop 4)
    else
      c :: substHomeAux home n rest

/-- Textual substitution of the home-directory placeholder by the real
home path, as the configuration examples write it. -/
def substHome (homeDir b : String) : String :=
  String.mk (substHomeAux homeDir.data b.data.length b.data)

/-- Modelled from the spec: the Binding Composer as §4.2 and §8 describe it
— the fixed default bindings, then the ProjectRecord's project-specific
bindings in input order with the home-directory placeholder textually
substituted by the real home path, then the source path mapped to the
in-container working directory as the last entry. The source's
`getVolumeBindings` takes no project-specific bindings at all; this
definition exists only to compare the spec's composition with the code's. -/
def composeBindingsSpec (homeDir projectPath : String) (projectBindings : List String) :
    List String :=
  [ homeDir ++ "/.config/nvim:/root/.config/nvim",
    homeDir ++ "/.vim:/root/.vim",
    homeDir ++ "/.vimrc:/root/.vimrc" ]
  ++ projectBindings.map (substHome homeDir)
  ++ [projectPath ++ ":/usr/src/app"]

/-- An empty engine whose pulls, starts and removals all succeed. -/
def engineA : Engine :=
  { containers := [], pullOk := fun _ => true, startOk := fun _ => true,
    removeOk := fun _ => true, nextId := 0 }

/-- A world where the project path already exists on disk and the
interactive attach always fails (the editor exits non-zero). -/
def worldAttachFail : World :=
  { homeDir := "/home/u", fsExists := fun _ => true, cloneOk := fun _ _ => true,
    attachOk := fun _ => false, username := "u", engine := engineA, store := [] }

/-- A store holding a record for ("u", "demo", "api") whose fields all
differ from what default derivation would produce. -/
def storeCustom : ConfigStore :=
  [(⟨"u", "demo", "api"⟩,
    ⟨some "ssh://internal/team/api.git", some "registry.local/api:pinned",
     some "editor-api", none⟩)]

/-- A store holding a record for ("u", "demo", "api") that lacks the
docker_image and container_name fields. -/
def storeMissingFields : ConfigStore :=
  [(⟨"u", "demo", "api"⟩, ⟨some "https://example.com/api.git", none, none, none⟩)]

/-- An engine already holding a running container named nvim-api, with all
engine operations succeeding. -/
def engineBusy : Engine :=
  { containers := [⟨"cid-old", "nvim-api", true⟩], pullOk := fun _ => true,
    startOk := fun _ => true, removeOk := fun _ => true, nextId := 7 }

/-- A world where the source must be cloned, the engine starts empty and
every external step succeeds. -/
def worldFresh : World :=
  { homeDir := "/home/u", fsExists := fun _ => false, cloneOk := fun _ _ => true,
    attachOk := fun _ => true, username := "u", engine := engineA, store := [] }

/-- Recognize the engine calls RunContainer can make (pull, create,
start). -/
def isEngineRunEvent : Event → Bool
  | Event.pull _ => true
  | Event.create _ _ _ _ _ => true
  | Event.start _ => true
  | _ => false

/-- Number of running containers the engine holds under a given name. -/
def runningWithName (e : Engine) (containerName : String) : Nat :=
  e.containers.countP (fun c => c.name == containerName && c.running)

/-- An empty engine whose image pulls all fail. -/
def engineNoPull : Engine :=
  { containers := [], pullOk := fun _ => false, startOk := fun _ => true,
    removeOk := fun _ => true, nextId := 0 }

/-- If a key is absent from the front list, lookup over an appended store
continues in the back list. -/
theorem lookup_append_of_none {α β : Type} [BEq α] (l1 l2 : List (α × β)) (a : α)
    (h : l1.lookup a = none) : (l1 ++ l2).lookup a = l2.lookup a := by
  induction l1 with
  | nil => rfl
  | cons x xs ih =>
    obtain ⟨k, v⟩ := x
    simp only [List.lookup_cons] at h
    simp only [List.cons_append, List.lookup_cons]
    cases hx : (a == k) with
    | true => simp [hx] at h
    | false =>
      simp only [hx] at h
      simp only [hx, Bool.false_eq_true, if_false] at h ⊢
      exact ih h

/-- C4: for a key with a stored ProjectRecord, the Identity Resolver
returns the stored repo_url, docker_image and container_name verbatim,
whatever they are; for a key without a record it returns the deterministic
default-derived triple. -/
theorem resolver_precedence (store : ConfigStore) (username p r : String) :
    (∀ u i c vb,
        store.lookup ⟨username, p, r⟩ = some ⟨some u, some i, some c, vb⟩ →
        deriveProjectValues store username p r = (u, i, c)) ∧
    (store.lookup ⟨username, p, r⟩ = none →
        deriveProjectValues store username p r =
          ("https://github.com/Cdaprod/" ++ toLowerStr r ++ ".git",
           "cdaprod/" ++ toLowerStr r ++ ":latest",
           "nvim-" ++ toLowerStr r)) := by
  constructor
  · intro u i c vb hrec
    simp [deriveProjectValues, hrec, fieldOrEmpty]
  · intro habs
    simp [deriveProjectValues, habs]

/-- Witness for C4: a record whose three fields differ from every
default-derivation template is returned verbatim, and the empty store
yields the derived triple for repo name "api". -/
theorem resolver_precedence_witness :
    deriveProjectValues storeCustom "u" "demo" "api" =
      ("ssh://internal/team/api.git", "registry.local/api:pinned", "editor-api") ∧
    deriveProjectValues [] "u" "demo" "api" =
      ("https://github.com/Cdaprod/api.git", "cdaprod/api:latest", "nvim-api") := by
  refine ⟨(resolver_precedence storeCustom "u" "demo" "api").1
      "ssh://internal/team/api.git" "registry.local/api:pinned" "editor-api" none rfl,
    ?_⟩
  have h := (resolver_precedence [] "u" "demo" "api").2 rfl
  exact h

/-- C5: adding a project whose composite key is already present fails with
the duplicate-key error and leaves the store exactly as it was — the
duplicate check runs before any field is written. -/
theorem duplicate_add_rejected (store : ConfigStore)
    (username p r url img cname : String)
    (hdup : (store.lookup ⟨username, p, r⟩).isSome = true) :
    (AddProjectConfig store username p r url img cname).1 =
      Except.error ("repository " ++ r ++ " already exists under project "
        ++ p ++ " for user " ++ username) ∧
    (AddProjectConfig store username p r url img cname).2 = store := by
  simp [AddProjectConfig, hdup]

/-- Witness for C5: adding ("u", "demo", "api") on top of a store that
already holds that key errors and leaves the store untouched. -/
theorem duplicate_add_rejected_witness :
    (AddProjectConfig storeCustom "u" "demo" "api" "u2" "i2" "c2").1 =
      Except.error "repository api already exists under project demo for user u" ∧
    (AddProjectConfig storeCustom "u" "demo" "api" "u2" "i2" "c2").2 = storeCustom := by
  have h := duplicate_add_rejected storeCustom "u" "demo" "api" "u2" "i2" "c2" (by decide)
  exact ⟨h.1, h.2⟩

/-- C6 counterexample: a record present under the key but lacking
docker_image and container_name is not rejected — `deriveProjectValues`
has no error outcome at all and proceeds with the empty string for each
missing field. -/
theorem malformed_record_read_not_rejected :
    deriveProjectValues storeMissingFields "u" "demo" "api" =
      ("https://example.com/api.git", "", "") := rfl

/-- C6 amended: reading a record whose docker_image and container_name
fields are missing never fails (the resolver has no error channel); it
returns the empty string in place of each missing field. -/
theorem malformed_record_read_yields_empty (store : ConfigStore)
    (username p r u : String) (vb : Option (List String))
    (hrec : store.lookup ⟨username, p, r⟩ = some ⟨some u, none, none, vb⟩) :
    deriveProjectValues store username p r = (u, "", "") := by
  simp [deriveProjectValues, hrec, fieldOrEmpty]

/-- Witness for the amended C6: the store with a URL-only record yields
empty image and container names. -/
theorem malformed_record_read_yields_empty_witness :
    deriveProjectValues storeMissingFields "u" "demo" "api" =
      ("https://example.com/api.git", "", "") :=
  malformed_record_read_yields_empty storeMissingFields "u" "demo" "api"
    "https://example.com/api.git" none rfl

/-- C7: with no record for the key, the derived identity uses the fixed
templates over the lower-cased repository name, and the add command stores
exactly those derived image and container names (with the user-supplied
URL). -/
theorem default_derivation_templates (store : ConfigStore)
    (username p r url : String)
    (habs : store.lookup ⟨username, p, r⟩ = none) :
    deriveProjectValues store username p r =
      ("https://github.com/Cdaprod/" ++ toLowerStr r ++ ".git",
       "cdaprod/" ++ toLowerStr r ++ ":latest",
       "nvim-" ++ toLowerStr r) ∧
    (addProjectCmdRun store username p r url).2.lookup ⟨username, p, r⟩ =
      some ⟨some url, some ("cdaprod/" ++ toLowerStr r ++ ":latest"),
            some ("nvim-" ++ toLowerStr r), none⟩ := by
  constructor
  · simp [deriveProjectValues, habs]
  · simp only [addProjectCmdRun, AddProjectConfig, habs, Option.isSome_none,
      Bool.false_eq_true, if_false]
    rw [lookup_append_of_none _ _ _ habs]
    simp [List.lookup_cons]

/-- Witness for C7: repo name "api" derives image "cdaprod/api:latest" and
container name "nvim-api", and the add command stores those exact values. -/
theorem default_derivation_templates_witness :
    deriveProjectValues [] "u" "demo" "api" =
      ("https://github.com/Cdaprod/api.git", "cdaprod/api:latest", "nvim-api") ∧
    (addProjectCmdRun [] "u" "demo" "api" "https://example.com/api.git").2.lookup
        ⟨"u", "demo", "api"⟩ =
      some ⟨some "https://example.com/api.git", some "cdaprod/api:latest",
            some "nvim-api", none⟩ := by
  have h := default_derivation_templates [] "u" "demo" "api" "https://example.com/api.git" rfl
  exact ⟨h.1, h.2⟩

/-- Every event RunContainer emits is an engine pull, create or start. -/
theorem runContainer_events_shape (e : Engine) (img nm : String) (b c v : List String) :
    ∀ ev ∈ (RunContainer e img nm b c v).2.2, isEngineRunEvent ev = true := by
  intro ev hev
  simp only [RunContainer] at hev
  split at hev
  · simp at hev; subst hev; rfl
  · split at hev
    · simp at hev
      rcases hev with h | h <;> (subst h; rfl)
    · split at hev
      · simp at hev
        rcases hev with h | h | h <;> (subst h; rfl)
      · simp at hev
        rcases hev with h | h | h <;> (subst h; rfl)

/-- Every event the materialization step emits is a clone. -/
theorem materialize_events_shape (w : World) (u pp : String) :
    ∀ ev ∈ (materialize w u pp).2, isCloneEvent ev = true := by
  intro ev hev
  simp only [materialize] at hev
  split at hev
  · simp at hev
  · split at hev <;> (simp at hev; subst hev; rfl)

/-- A create event in a RunContainer trace carries exactly the arguments
RunContainer was invoked with. -/
theorem runContainer_create_args (e : Engine) (img nm : String) (b c v : List String)
    {i n : String} {cc vv bb : List String}
    (h : Event.create i n cc vv bb ∈ (RunContainer e img nm b c v).2.2) :
    i = img ∧ n = nm ∧ cc = c ∧ vv = v ∧ bb = b := by
  simp only [RunContainer] at h
  split at h
  · simp at h
  · split at h
    · simp at h
      exact ⟨h.1, h.2.1, h.2.2.1, h.2.2.2.1, h.2.2.2.2⟩
    · split at h <;>
      · simp at h
        exact ⟨h.1, h.2.1, h.2.2.1, h.2.2.2.1, h.2.2.2.2⟩

/-- The attach step emits exactly one attach event, success or failure. -/
theorem attach_trace (w : World) (cid : String) :
    (AttachToContainer w cid).2 = [Event.attach cid] := by
  unfold AttachToContainer; split <;> rfl

/-- The teardown step emits exactly one remove event, success or failure. -/
theorem remove_trace (e : Engine) (cid : String) :
    (RemoveContainer e cid).2.2 = [Event.remove cid] := by
  unfold RemoveContainer; split <;> rfl

/-- Engine-run events (pull, create, start) are not clone events. -/
theorem engineRun_not_clone {ev : Event} (h : isEngineRunEvent ev = true) :
    isCloneEvent ev = false := by
  cases ev <;> simp_all [isEngineRunEvent, isCloneEvent]

/-- Engine-run events (pull, create, start) are not remove events. -/
theorem engineRun_not_remove {ev : Event} (h : isEngineRunEvent ev = true) :
    isRemoveEvent ev = false := by
  cases ev <;> simp_all [isEngineRunEvent, isRemoveEvent]

/-- Clone events are not remove events. -/
theorem clone_not_remove {ev : Event} (h : isCloneEvent ev = true) :
    isRemoveEvent ev = false := by
  cases ev <;> simp_all [isCloneEvent, isRemoveEvent]

/-- Every create event in a StartProject trace carries the resolved image
and container name, the fixed editor command, the hard-coded environment,
and the composed default bindings. -/
theorem startProject_create_args (w : World) (p r : String)
    {img nm : String} {cmd env binds : List String}
    (hmem : Event.create img nm cmd env binds ∈ (StartProject w p r).2.2) :
    img = (deriveProjectValues w.store w.username p r).2.1 ∧
    nm = (deriveProjectValues w.store w.username p r).2.2 ∧
    cmd = ["nvim"] ∧ env = ["HOME=/home/cdaprod"] ∧
    binds = getVolumeBindings w.homeDir (projectPathOf w.homeDir p r) := by
  have hmat := materialize_events_shape w (deriveProjectValues w.store w.username p r).1
    (projectPathOf w.homeDir p r)
  simp only [StartProject] at hmem
  split at hmem
  · next msg evs heq =>
    rw [heq] at hmat
    have hc := hmat _ hmem
    simp [isCloneEvent] at hc
  · next evs0 heq0 =>
    rw [heq0] at hmat
    split at hmem
    · next msg e1 evs1 heq1 =>
      rw [List.mem_append] at hmem
      rcases hmem with hmem | hmem
      · have hc := hmat _ hmem
        simp [isCloneEvent] at hc
      · have hrc : Event.create img nm cmd env binds ∈
            (RunContainer w.engine (deriveProjectValues w.store w.username p r).2.1
              (deriveProjectValues w.store w.username p r).2.2
              (getVolumeBindings w.homeDir (projectPathOf w.homeDir p r))
              ["nvim"] ["HOME=/home/cdaprod"]).2.2 := by
          rw [heq1]; exact hmem
        exact runContainer_create_args _ _ _ _ _ _ hrc
    · next cid e1 evs1 heq1 =>
      split at hmem
      · next msg evs2 heq2 =>
        have hev2 : evs2 = [Event.attach cid] := by
          rw [← attach_trace w cid, heq2]
        subst hev2
        simp only [List.mem_append] at hmem
        rcases hmem with (hmem | hmem) | hmem
        · have hc := hmat _ hmem
          simp [isCloneEvent] at hc
        · have hrc : Event.create img nm cmd env binds ∈
              (RunContainer w.engine (deriveProjectValues w.store w.username p r).2.1
                (deriveProjectValues w.store w.username p r).2.2
                (getVolumeBindings w.homeDir (projectPathOf w.homeDir p r))
                ["nvim"] ["HOME=/home/cdaprod"]).2.2 := by
            rw [heq1]; exact hmem
          exact runContainer_create_args _ _ _ _ _ _ hrc
        · simp at hmem
      · next evs2 heq2 =>
        have hev2 : evs2 = [Event.attach cid] := by
          rw [← attach_trace w cid, heq2]
        subst hev2
        split at hmem
        · next msg3 e2 evs3 heq3 =>
          have hev3 : evs3 = [Event.remove cid] := by
            have h := remove_trace e1 cid
            rw [heq3] at h
            exact h
          subst hev3
          simp only [List.mem_append] at hmem
          rcases hmem with ((hmem | hmem) | hmem) | hmem
          · have hc := hmat _ hmem
            simp [isCloneEvent] at hc
          · have hrc : Event.create img nm cmd env binds ∈
                (RunContainer w.engine (deriveProjectValues w.store w.username p r).2.1
                  (deriveProjectValues w.store w.username p r).2.2
                  (getVolumeBindings w.homeDir (projectPathOf w.homeDir p r))
                  ["nvim"] ["HOME=/home/cdaprod"]).2.2 := by
              rw [heq1]; exact hmem
            exact runContainer_create_args _ _ _ _ _ _ hrc
          · simp at hmem
          · simp at hmem
        · next e2 evs3 heq3 =>
          have hev3 : evs3 = [Event.remove cid] := by
            have h := remove_trace e1 cid
            rw [heq3] at h
            exact h
          subst hev3
          simp only [List.mem_append] at hmem
          rcases hmem with ((hmem | hmem) | hmem) | hmem
          · have hc := hmat _ hmem
            simp [isCloneEvent] at hc
          · have hrc : Event.create img nm cmd env binds ∈
                (RunContainer w.engine (deriveProjectValues w.store w.username p r).2.1
                  (deriveProjectValues w.store w.username p r).2.2
                  (getVolumeBindings w.homeDir (projectPathOf w.homeDir p r))
                  ["nvim"] ["HOME=/home/cdaprod"]).2.2 := by
              rw [heq1]; exact hmem
            exact runContainer_create_args _ _ _ _ _ _ hrc
          · simp at hmem
          · simp at hmem

/-- C3 counterexample: for a nonempty project-specific binding list, the
binding composition the claim describes differs from the binding list the
code builds — `getVolumeBindings` takes no project-specific bindings and
never includes them. -/
theorem binding_composition_counterexample :
    composeBindingsSpec "/home/u" "/home/u/Projects/p/r" ["$HOME/.ssh:/root/.ssh"] ≠
      getVolumeBindings "/home/u" "/home/u/Projects/p/r" := by decide

/-- C3 amended: the binding set passed to every container create performed
by StartProject is the fixed default bindings in fixed order followed by
the project source path mapped to the in-container working directory as
the last entry — the spec's composition with an empty project-specific
list; stored project bindings are never consulted. -/
theorem binding_composition (w : World) (p r : String)
    {img nm : String} {cmd env binds : List String}
    (hmem : Event.create img nm cmd env binds ∈ (StartProject w p r).2.2) :
    binds = composeBindingsSpec w.homeDir (projectPathOf w.homeDir p r) [] := by
  have h := (startProject_create_args w p r hmem).2.2.2.2
  rw [h]
  simp [getVolumeBindings, composeBindingsSpec]

/-- Witness for the amended C3: the create event of a concrete session
carries the default bindings with the source-path binding last. -/
theorem binding_composition_witness :
    Event.create "cdaprod/api:latest" "nvim-api" ["nvim"] ["HOME=/home/cdaprod"]
        ["/home/u/.config/nvim:/root/.config/nvim", "/home/u/.vim:/root/.vim",
         "/home/u/.vimrc:/root/.vimrc", "/home/u/Projects/demo/api:/usr/src/app"] ∈
      (StartProject worldAttachFail "demo" "api").2.2 ∧
    (["/home/u/.config/nvim:/root/.config/nvim", "/home/u/.vim:/root/.vim",
      "/home/u/.vimrc:/root/.vimrc", "/home/u/Projects/demo/api:/usr/src/app"] : List String) =
      composeBindingsSpec "/home/u" (projectPathOf "/home/u" "demo" "api") [] := by
  have hmem : Event.create "cdaprod/api:latest" "nvim-api" ["nvim"] ["HOME=/home/cdaprod"]
      ["/home/u/.config/nvim:/root/.config/nvim", "/home/u/.vim:/root/.vim",
       "/home/u/.vimrc:/root/.vimrc", "/home/u/Projects/demo/api:/usr/src/app"] ∈
      (StartProject worldAttachFail "demo" "api").2.2 := by decide
  exact ⟨hmem, binding_composition worldAttachFail "demo" "api" hmem⟩

/-- C9: the image pull is the first engine operation of every RunContainer
invocation, and a failed pull returns the pull error with the engine
unchanged and no create or start performed (the trace is the pull alone). -/
theorem pull_first_and_fatal (e : Engine) (img nm : String) (b c v : List String) :
    (RunContainer e img nm b c v).2.2.head? = some (Event.pull img) ∧
    (e.pullOk img = false →
      (RunContainer e img nm b c v).1 = Except.error ("error pulling image " ++ img) ∧
      (RunContainer e img nm b c v).2.1 = e ∧
      (RunContainer e img nm b c v).2.2 = [Event.pull img]) := by
  constructor
  · simp only [RunContainer]
    split
    · rfl
    · split
      · rfl
      · split <;> rfl
  · intro hp
    simp only [RunContainer]
    rw [if_pos hp]
    exact ⟨rfl, rfl, rfl⟩

/-- Witness for C9: an engine whose pulls fail yields the pull error, an
unchanged engine and a pull-only trace. -/
theorem pull_first_and_fatal_witness :
    engineNoPull.pullOk "cdaprod/api:latest" = false ∧
    (RunContainer engineNoPull "cdaprod/api:latest" "nvim-api" [] ["nvim"] []).1 =
      Except.error "error pulling image cdaprod/api:latest" ∧
    (RunContainer engineNoPull "cdaprod/api:latest" "nvim-api" [] ["nvim"] []).2.1 =
      engineNoPull ∧
    (RunContainer engineNoPull "cdaprod/api:latest" "nvim-api" [] ["nvim"] []).2.2 =
      [Event.pull "cdaprod/api:latest"] := by
  have h := (pull_first_and_fatal engineNoPull "cdaprod/api:latest" "nvim-api" [] ["nvim"] []).2 rfl
  exact ⟨rfl, h.1, h.2.1, h.2.2⟩

/-- C10: the environment list passed to every container create performed by
StartProject is exactly the single hard-coded entry, for every world,
project key, record and store content. -/
theorem container_env_hardcoded (w : World) (p r : String)
    {img nm : String} {cmd env binds : List String}
    (hmem : Event.create img nm cmd env binds ∈ (StartProject w p r).2.2) :
    env = ["HOME=/home/cdaprod"] :=
  (startProject_create_args w p r hmem).2.2.2.1

/-- Witness for C10: the create event of a concrete session carries the
hard-coded environment entry. -/
theorem container_env_hardcoded_witness :
    Event.create "cdaprod/api:latest" "nvim-api" ["nvim"] ["HOME=/home/cdaprod"]
        (getVolumeBindings "/home/u" "/home/u/Projects/demo/api") ∈
      (StartProject worldAttachFail "demo" "api").2.2 ∧
    (["HOME=/home/cdaprod"] : List String) = ["HOME=/home/cdaprod"] := by
  have hmem : Event.create "cdaprod/api:latest" "nvim-api" ["nvim"] ["HOME=/home/cdaprod"]
      (getVolumeBindings "/home/u" "/home/u/Projects/demo/api") ∈
      (StartProject worldAttachFail "demo" "api").2.2 := by decide
  exact ⟨hmem, container_env_hardcoded worldAttachFail "demo" "api" hmem⟩

/-- With the project path already present on disk, no clone event ever
appears in the session trace. -/
theorem startProject_no_clone_of_exists (w : World) (p r : String)
    (hex : w.fsExists (projectPathOf w.homeDir p r) = true) :
    ∀ ev ∈ (StartProject w p r).2.2, isCloneEvent ev = false := by
  intro ev hev
  have h1 : materialize w (deriveProjectValues w.store w.username p r).1
      (projectPathOf w.homeDir p r) = (Except.ok (), []) := by
    simp [materialize, hex]
  simp only [StartProject] at hev
  split at hev
  · next msg evs heq =>
    rw [h1] at heq
    simp at heq
  · next evs0 heq0 =>
    rw [h1] at heq0
    have hevs0 : evs0 = [] := by
      have := congrArg (fun t => t.2) heq0
      simpa using this.symm
    subst hevs0
    split at hev
    · next msg e1 evs1 heq1 =>
      simp only [List.nil_append] at hev
      refine engineRun_not_clone (runContainer_events_shape w.engine
            (deriveProjectValues w.store w.username p r).2.1
            (deriveProjectValues w.store w.username p r).2.2
            (getVolumeBindings w.homeDir (projectPathOf w.homeDir p r))
            ["nvim"] ["HOME=/home/cdaprod"] ev ?_)
      rw [heq1]
      exact hev
    · next cid e1 evs1 heq1 =>
      split at hev
      · next msg evs2 heq2 =>
        have hev2 : evs2 = [Event.attach cid] := by
          rw [← attach_trace w cid, heq2]
        subst hev2
        simp only [List.nil_append, List.mem_append] at hev
        rcases hev with hev | hev
        · refine engineRun_not_clone (runContainer_events_shape w.engine
            (deriveProjectValues w.store w.username p r).2.1
            (deriveProjectValues w.store w.username p r).2.2
            (getVolumeBindings w.homeDir (projectPathOf w.homeDir p r))
            ["nvim"] ["HOME=/home/cdaprod"] ev ?_)
          rw [heq1]
          exact hev
        · simp at hev
          subst hev
          rfl
      · next evs2 heq2 =>
        have hev2 : evs2 = [Event.attach cid] := by
          rw [← attach_trace w cid, heq2]
        subst hev2
        split at hev
        · next msg3 e2 evs3 heq3 =>
          have hev3 : evs3 = [Event.remove cid] := by
            have h := remove_trace e1 cid
            rw [heq3] at h
            exact h
          subst hev3
          simp only [List.nil_append, List.mem_append] at hev
          rcases hev with (hev | hev) | hev
          · refine engineRun_not_clone (runContainer_events_shape w.engine
            (deriveProjectValues w.store w.username p r).2.1
            (deriveProjectValues w.store w.username p r).2.2
            (getVolumeBindings w.homeDir (projectPathOf w.homeDir p r))
            ["nvim"] ["HOME=/home/cdaprod"] ev ?_)
            rw [heq1]
            exact hev
          · simp at hev; subst hev; rfl
          · simp at hev; subst hev; rfl
        · next e2 evs3 heq3 =>
          have hev3 : evs3 = [Event.remove cid] := by
            have h := remove_trace e1 cid
            rw [heq3] at h
            exact h
          subst hev3
          simp only [List.nil_append, List.mem_append] at hev
          rcases hev with (hev | hev) | hev
          · refine engineRun_not_clone (runContainer_events_shape w.engine
            (deriveProjectValues w.store w.username p r).2.1
            (deriveProjectValues w.store w.username p r).2.2
            (getVolumeBindings w.homeDir (projectPathOf w.homeDir p r))
            ["nvim"] ["HOME=/home/cdaprod"] ev ?_)
            rw [heq1]
            exact hev
          · simp at hev; subst hev; rfl
          · simp at hev; subst hev; rfl

/-- C8: when the destination path already exists, the materialization step
performs zero clone attempts and returns success, and the whole session
trace contains no clone call. -/
theorem materializer_noop (w : World) (p r : String)
    (hex : w.fsExists (projectPathOf w.homeDir p r) = true) :
    materialize w (deriveProjectValues w.store w.username p r).1
        (projectPathOf w.homeDir p r) = (Except.ok (), []) ∧
    (StartProject w p r).2.2.any isCloneEvent = false := by
  refine ⟨by simp [materialize, hex], ?_⟩
  rw [List.any_eq_false]
  intro ev hev
  simp [startProject_no_clone_of_exists w p r hex ev hev]


/-- Witness for C8: a world whose filesystem already holds the project path
clones nothing. -/
theorem materializer_noop_witness :
    worldAttachFail.fsExists (projectPathOf "/home/u" "demo" "api") = true ∧
    materialize worldAttachFail
        (deriveProjectValues worldAttachFail.store worldAttachFail.username "demo" "api").1
        (projectPathOf worldAttachFail.homeDir "demo" "api") = (Except.ok (), []) ∧
    (StartProject worldAttachFail "demo" "api").2.2.any isCloneEvent = false := by
  have h := materializer_noop worldAttachFail "demo" "api" rfl
  exact ⟨rfl, h.1, h.2⟩

/-- An attach that returned an error did so because the interactive
process exited non-zero, with the corresponding message. -/
theorem attach_result_error (w : World) (cid msg : String) (evs2 : List Event)
    (heq : AttachToContainer w cid = (Except.error msg, evs2)) :
    w.attachOk cid = false ∧ msg = "error executing Neovim in " ++ cid := by
  unfold AttachToContainer at heq
  split at heq
  · simp at heq
  · next hc =>
    simp only [Prod.mk.injEq, Except.error.injEq] at heq
    exact ⟨Bool.not_eq_true _ ▸ eq_false_of_ne_true hc, heq.1.symm⟩

/-- An attach that returned success had a clean interactive exit. -/
theorem attach_result_ok (w : World) (cid : String) (evs2 : List Event)
    (heq : AttachToContainer w cid = (Except.ok (), evs2)) :
    w.attachOk cid = true := by
  unfold AttachToContainer at heq
  split at heq
  · next hc => exact hc
  · simp at heq

/-- Every StartProject run falls into one of four cases: materialization
failed; the container run failed; the attach failed (error returned, no
teardown); or the attach succeeded (exactly one teardown call follows). -/
theorem startProject_shape (w : World) (p r : String) :
    (∃ msg evs0, (∀ ev ∈ evs0, isCloneEvent ev = true) ∧
      StartProject w p r = (Except.error msg, w.engine, evs0)) ∨
    (∃ msg e1 evs0 evs1, (∀ ev ∈ evs0, isCloneEvent ev = true) ∧
      (∀ ev ∈ evs1, isEngineRunEvent ev = true) ∧
      StartProject w p r = (Except.error ("error running container: " ++ msg), e1, evs0 ++ evs1)) ∨
    (∃ cid e1 evs0 evs1, (∀ ev ∈ evs0, isCloneEvent ev = true) ∧
      (∀ ev ∈ evs1, isEngineRunEvent ev = true) ∧
      w.attachOk cid = false ∧
      StartProject w p r =
        (Except.error ("error attaching to container: error executing Neovim in " ++ cid),
         e1, evs0 ++ evs1 ++ [Event.attach cid])) ∨
    (∃ cid e2 res evs0 evs1, (∀ ev ∈ evs0, isCloneEvent ev = true) ∧
      (∀ ev ∈ evs1, isEngineRunEvent ev = true) ∧
      w.attachOk cid = true ∧
      StartProject w p r = (res, e2, evs0 ++ evs1 ++ [Event.attach cid] ++ [Event.remove cid])) := by
  have hmat := materialize_events_shape w (deriveProjectValues w.store w.username p r).1
    (projectPathOf w.homeDir p r)
  have hrcs := runContainer_events_shape w.engine
    (deriveProjectValues w.store w.username p r).2.1
    (deriveProjectValues w.store w.username p r).2.2
    (getVolumeBindings w.homeDir (projectPathOf w.homeDir p r))
    ["nvim"] ["HOME=/home/cdaprod"]
  simp only [StartProject]
  split
  · next msg evs heq =>
    rw [heq] at hmat
    exact Or.inl ⟨msg, evs, hmat, rfl⟩
  · next evs0 heq0 =>
    rw [heq0] at hmat
    split
    · next msg e1 evs1 heq1 =>
      rw [heq1] at hrcs
      exact Or.inr (Or.inl ⟨msg, e1, evs0, evs1, hmat, hrcs, rfl⟩)
    · next cid e1 evs1 heq1 =>
      rw [heq1] at hrcs
      split
      · next msg evs2 heq2 =>
        have hev2 : evs2 = [Event.attach cid] := by
          rw [← attach_trace w cid, heq2]
        subst hev2
        obtain ⟨hok, hmsg⟩ := attach_result_error w cid msg _ heq2
        subst hmsg
        exact Or.inr (Or.inr (Or.inl ⟨cid, e1, evs0, evs1, hmat, hrcs, hok, rfl⟩))
      · next evs2 heq2 =>
        have hev2 : evs2 = [Event.attach cid] := by
          rw [← attach_trace w cid, heq2]
        subst hev2
        have hok := attach_result_ok w cid _ heq2
        split
        · next msg3 e2 evs3 heq3 =>
          have hev3 : evs3 = [Event.remove cid] := by
            have h := remove_trace e1 cid
            rw [heq3] at h
            exact h
          subst hev3
          exact Or.inr (Or.inr (Or.inr
            ⟨cid, e2, Except.error ("error removing container: " ++ msg3), evs0, evs1,
             hmat, hrcs, hok, rfl⟩))
        · next e2 evs3 heq3 =>
          have hev3 : evs3 = [Event.remove cid] := by
            have h := remove_trace e1 cid
            rw [heq3] at h
            exact h
          subst hev3
          exact Or.inr (Or.inr (Or.inr
            ⟨cid, e2, Except.ok (), evs0, evs1, hmat, hrcs, hok, rfl⟩))

/-- C1 amended: teardown runs exactly once with the attached container id
when the interactive attach succeeds; when the attach returns an error,
StartProject returns the attach error without any RemoveContainer call. -/
theorem teardown_only_after_successful_attach (w : World) (p r cid : String)
    (hatt : Event.attach cid ∈ (StartProject w p r).2.2) :
    (w.attachOk cid = true →
      (StartProject w p r).2.2.count (Event.remove cid) = 1) ∧
    (w.attachOk cid = false →
      (StartProject w p r).2.2.any isRemoveEvent = false ∧
      (StartProject w p r).1 =
        Except.error ("error attaching to container: error executing Neovim in " ++ cid)) := by
  rcases startProject_shape w p r with
    ⟨msg, evs0, hc0, heq⟩ | ⟨msg, e1, evs0, evs1, hc0, hr1, heq⟩ |
    ⟨cid2, e1, evs0, evs1, hc0, hr1, hok, heq⟩ |
    ⟨cid2, e2, res, evs0, evs1, hc0, hr1, hok, heq⟩
  · rw [heq] at hatt
    have := hc0 _ hatt
    simp [isCloneEvent] at this
  · rw [heq] at hatt
    simp only [List.mem_append] at hatt
    rcases hatt with h | h
    · have := hc0 _ h; simp [isCloneEvent] at this
    · have := hr1 _ h; simp [isEngineRunEvent] at this
  · rw [heq] at hatt
    have hcid : cid = cid2 := by
      simp only [List.mem_append] at hatt
      rcases hatt with (h | h) | h
      · have := hc0 _ h; simp [isCloneEvent] at this
      · have := hr1 _ h; simp [isEngineRunEvent] at this
      · simpa using h
    subst hcid
    rw [heq]
    constructor
    · intro htrue
      rw [htrue] at hok
      exact absurd hok (by simp)
    · intro _
      refine ⟨?_, rfl⟩
      rw [List.any_eq_false]
      intro ev hev
      simp only [List.mem_append] at hev
      rcases hev with (h | h) | h
      · simp [clone_not_remove (hc0 _ h)]
      · simp [engineRun_not_remove (hr1 _ h)]
      · simp only [List.mem_singleton] at h
        subst h
        simp [isRemoveEvent]
  · rw [heq] at hatt
    have hcid : cid = cid2 := by
      simp only [List.mem_append] at hatt
      rcases hatt with ((h | h) | h) | h
      · have := hc0 _ h; simp [isCloneEvent] at this
      · have := hr1 _ h; simp [isEngineRunEvent] at this
      · simpa using h
      · simp at h
    subst hcid
    rw [heq]
    constructor
    · intro _
      have h0 : evs0.count (Event.remove cid) = 0 := by
        rw [List.count_eq_zero]
        intro hmem
        have := hc0 _ hmem
        simp [isCloneEvent] at this
      have h1 : evs1.count (Event.remove cid) = 0 := by
        rw [List.count_eq_zero]
        intro hmem
        have := hr1 _ hmem
        simp [isEngineRunEvent] at this
      simp [List.count_append, h0, h1, List.count_cons]
    · intro hfalse
      rw [hfalse] at hok
      exact absurd hok (by simp)

/-- The start update never changes a container name. -/
theorem setRunning_name (cid : String) (c : EngineContainer) :
    (if c.id == cid then { c with running := true } else c).name = c.name := by
  split <;> rfl

/-- The engine state after a fully successful RunContainer: the fresh
container appended and marked running, the id counter advanced. -/
theorem runContainer_success_engine (e : Engine) (img nm : String) (b c v : List String)
    (hp : e.pullOk img = true) (hn : nameInUse e nm = false)
    (hs : e.startOk ("cid-" ++ toString e.nextId) = true) :
    (RunContainer e img nm b c v).2.1 =
      { containers := setRunning ("cid-" ++ toString e.nextId)
          (e.containers ++ [⟨"cid-" ++ toString e.nextId, nm, false⟩]),
        pullOk := e.pullOk, startOk := e.startOk, removeOk := e.removeOk,
        nextId := e.nextId + 1 } := by
  simp only [RunContainer]
  rw [if_neg (by simp [hp]), if_neg (by simp [hn]), if_neg (by simp [hs])]

/-- After a successful RunContainer the container name is in use. -/
theorem nameInUse_after_success (e : Engine) (img nm : String) (b c v : List String)
    (hp : e.pullOk img = true) (hn : nameInUse e nm = false)
    (hs : e.startOk ("cid-" ++ toString e.nextId) = true) :
    nameInUse (RunContainer e img nm b c v).2.1 nm = true := by
  rw [runContainer_success_engine e img nm b c v hp hn hs]
  simp [nameInUse, setRunning, List.any_append, List.any_map]

/-- Appending a fresh container under a previously unused name and marking
it running leaves exactly one running container under that name. -/
theorem countP_setRunning_append (cs : List EngineContainer) (cid nm : String)
    (hall : ∀ x ∈ cs, (x.name == nm) = false) :
    (setRunning cid (cs ++ [⟨cid, nm, false⟩])).countP
      (fun c => c.name == nm && c.running) = 1 := by
  induction cs with
  | nil => simp [setRunning, List.countP_cons]
  | cons a as ih =>
    have ha := hall a (List.mem_cons_self a as)
    have ih2 := ih (fun x hx => hall x (List.mem_cons_of_mem a hx))
    simp only [setRunning, List.cons_append, List.map_cons, List.countP_cons] at ih2 ⊢
    rw [ih2]
    have hcond : ((if a.id == cid then { a with running := true } else a).name == nm &&
        (if a.id == cid then { a with running := true } else a).running) = false := by
      have hpres : (if a.id == cid then { a with running := true } else a).name = a.name := by
        split <;> rfl
      rw [hpres, ha]
      exact Bool.false_and _
    rw [hcond]
    simp

/-- A successful RunContainer from a name-free engine leaves exactly one
running container under the name. -/
theorem runningWithName_after_success (e : Engine) (img nm : String) (b c v : List String)
    (hp : e.pullOk img = true) (hn : nameInUse e nm = false)
    (hs : e.startOk ("cid-" ++ toString e.nextId) = true) :
    runningWithName (RunContainer e img nm b c v).2.1 nm = 1 := by
  rw [runContainer_success_engine e img nm b c v hp hn hs]
  have hn2 : e.containers.any (fun c => c.name == nm) = false := hn
  have hall : ∀ x ∈ e.containers, (x.name == nm) = false := by
    intro x hx
    simpa using List.any_eq_false.mp hn2 x hx
  simp only [runningWithName]
  exact countP_setRunning_append e.containers _ nm hall

/-- With the name already in use (and the pull succeeding), RunContainer
fails at the create step and leaves the engine unchanged. -/
theorem runContainer_conflict (E : Engine) (img nm : String) (b c v : List String)
    (hp : E.pullOk img = true) (hn : nameInUse E nm = true) :
    (RunContainer E img nm b c v).1 = Except.error ("error creating container " ++ nm) ∧
    (RunContainer E img nm b c v).2.1 = E := by
  simp only [RunContainer]
  rw [if_neg (by simp [hp]), if_pos (by simp [hn])]
  exact ⟨rfl, rfl⟩

/-- C2 amended: RunContainer never inspects for or removes a pre-existing
container (its trace holds no remove call); when the name is in use the
create step fails and the engine is unchanged, so a second invocation with
identical inputs after a successful first one changes nothing and leaves
exactly one running container under the name. -/
theorem runContainer_no_reconciliation (e : Engine) (img nm : String) (b c v : List String) :
    ((RunContainer e img nm b c v).2.2.any isRemoveEvent = false) ∧
    (e.pullOk img = true → nameInUse e nm = true →
      (RunContainer e img nm b c v).1 = Except.error ("error creating container " ++ nm) ∧
      (RunContainer e img nm b c v).2.1 = e) ∧
    (e.pullOk img = true → nameInUse e nm = false →
      e.startOk ("cid-" ++ toString e.nextId) = true →
      (RunContainer ((RunContainer e img nm b c v).2.1) img nm b c v).2.1 =
        (RunContainer e img nm b c v).2.1 ∧
      runningWithName (RunContainer ((RunContainer e img nm b c v).2.1) img nm b c v).2.1 nm = 1) := by
  refine ⟨?_, ?_, ?_⟩
  · rw [List.any_eq_false]
    intro ev hev
    simp [engineRun_not_remove (runContainer_events_shape e img nm b c v ev hev)]
  · intro hp hn
    exact runContainer_conflict e img nm b c v hp hn
  · intro hp hn hs
    have hbusy := nameInUse_after_success e img nm b c v hp hn hs
    have hpull2 : (RunContainer e img nm b c v).2.1.pullOk img = true := by
      rw [runContainer_success_engine e img nm b c v hp hn hs]
      exact hp
    have hsecond :=
      (runContainer_conflict ((RunContainer e img nm b c v).2.1) img nm b c v hpull2 hbusy).2
    refine ⟨hsecond, ?_⟩
    rw [hsecond]
    exact runningWithName_after_success e img nm b c v hp hn hs

/-- C1 counterexample: a session whose container was created and started
successfully and whose attach failed returns the attach error with no
RemoveContainer call anywhere in its trace. -/
theorem guaranteed_teardown_counterexample :
    (StartProject worldAttachFail "demo" "api").2.2.any isStartEvent = true ∧
    Event.attach "cid-0" ∈ (StartProject worldAttachFail "demo" "api").2.2 ∧
    worldAttachFail.attachOk "cid-0" = false ∧
    (StartProject worldAttachFail "demo" "api").2.2.any isRemoveEvent = false ∧
    (StartProject worldAttachFail "demo" "api").1 =
      Except.error "error attaching to container: error executing Neovim in cid-0" :=
  ⟨by decide, by decide, rfl, by decide, rfl⟩

/-- Witness for the amended C1: a clean session tears its container down
exactly once, and a failed-attach session performs no removal and surfaces
the attach error. -/
theorem teardown_only_after_successful_attach_witness :
    ((StartProject worldFresh "demo" "api").2.2.count (Event.remove "cid-0") = 1) ∧
    ((StartProject worldAttachFail "demo" "api").2.2.any isRemoveEvent = false ∧
     (StartProject worldAttachFail "demo" "api").1 =
       Except.error ("error attaching to container: error executing Neovim in " ++ "cid-0")) := by
  have h1 := teardown_only_after_successful_attach worldFresh "demo" "api" "cid-0" (by decide)
  have h2 := teardown_only_after_successful_attach worldAttachFail "demo" "api" "cid-0" (by decide)
  exact ⟨h1.1 rfl, h2.2 rfl⟩

/-- C2 counterexample: with a container already existing under the name,
RunContainer performs no removal of it — its trace contains no remove
call — and instead fails at the create step with a name conflict. -/
theorem reconciliation_counterexample :
    nameInUse engineBusy "nvim-api" = true ∧
    (RunContainer engineBusy "cdaprod/api:latest" "nvim-api" [] ["nvim"]
        ["HOME=/home/cdaprod"]).2.2.any isRemoveEvent = false ∧
    (RunContainer engineBusy "cdaprod/api:latest" "nvim-api" [] ["nvim"]
        ["HOME=/home/cdaprod"]).1 =
      Except.error "error creating container nvim-api" :=
  ⟨by decide, by decide, rfl⟩

/-- Witness for the amended C2: on a busy engine the create step fails and
the engine is unchanged; starting from an empty engine, a successful first
call followed by an identical second call leaves exactly one running
container under the name. -/
theorem runContainer_no_reconciliation_witness :
    ((RunContainer engineBusy "cdaprod/api:latest" "nvim-api" [] ["nvim"] []).1 =
        Except.error "error creating container nvim-api" ∧
     (RunContainer engineBusy "cdaprod/api:latest" "nvim-api" [] ["nvim"] []).2.1 =
        engineBusy) ∧
    ((RunContainer ((RunContainer engineA "cdaprod/api:latest" "nvim-api" [] ["nvim"] []).2.1)
          "cdaprod/api:latest" "nvim-api" [] ["nvim"] []).2.1 =
        (RunContainer engineA "cdaprod/api:latest" "nvim-api" [] ["nvim"] []).2.1 ∧
     runningWithName
        (RunContainer ((RunContainer engineA "cdaprod/api:latest" "nvim-api" [] ["nvim"] []).2.1)
          "cdaprod/api:latest" "nvim-api" [] ["nvim"] []).2.1 "nvim-api" = 1) := by
  have h1 := (runContainer_no_reconciliation engineBusy "cdaprod/api:latest" "nvim-api"
    [] ["nvim"] []).2.1 rfl (by decide)
  have h2 := (runContainer_no_reconciliation engineA "cdaprod/api:latest" "nvim-api"
    [] ["nvim"] []).2.2 rfl (by decide) rfl
  exact ⟨h1, h2⟩

end DevEnv
